import Mathlib

/-!
Verification development for the interview-practice pad repository: a shallow
embedding of the SQL-page session state machine (challenge generation, schema
and data loading, reference execution, query execution, result comparison),
the response-parser normalization and fence stripping, the generation proxy
endpoint, and the Python-page generation flow, with theorems settling the
frozen claims about them.
-/

namespace DSPad

/-! ## Data model (src/unnamed/part_000)

SQLite cell values as produced by sql.js and consumed by parseSqlResult.
A row is the ordered sequence of column/value pairs that parseSqlResult
builds (object keys in the column order of the result). -/

inductive SqlValue where
  | int (i : Int)
  | str (s : String)
  | null
deriving DecidableEq, Repr

abbrev Row := List (String × SqlValue)

/-- One question of a challenge document (part_000 lines 144-153). -/
structure Question where
  title : String
  difficulty : String
  tags : List String
  question : String
  solution_sql : String
  explanation : String
deriving DecidableEq, Repr

/-- A parsed, well-formed challenge document (part_000 lines 141-155). -/
structure Challenge where
  schema_sql : String
  data_sql : String
  questions : List Question
deriving DecidableEq, Repr

inductive Mode where
  | manual
  | auto
  | company
deriving DecidableEq, Repr

inductive Tab where
  | editor
  | solution
deriving DecidableEq, Repr

inductive FType where
  | success
  | error
  | warning
deriving DecidableEq, Repr

structure Feedback where
  ftype : FType
  message : String
deriving DecidableEq, Repr

/-! ## Execution environment interface

sql.js database handle, as the page uses it: `new SQL.Database()`,
`db.run(stmts)` (throws on error, mutates in place), `db.exec(query)`
(returns result rows via parseSqlResult, mutates in place; on error the
handle keeps whatever partial mutation happened).  `previews` models the
read-only sqlite_master preview loop of part_000 lines 236-250. -/

structure Engine (Db : Type) where
  newDatabase : Db
  runStmt : Db → String → Option String × Db
  execQuery : Db → String → Except String (List Row) × Db
  previews : Db → List (String × List Row)

/-! ## Component state (part_000 lines 9-37)

`db` is dbRef.current (none before the engine initialized), `sqlLoaded`
is whether sqlJsRef.current is set; initEngine (lines 58-70) sets both
together. -/

structure AppState (Db : Type) where
  mode : Mode
  topic : String
  companyName : String
  difficulty : String
  isLoading : Bool
  sqlLoaded : Bool
  db : Option Db
  challenge : Option Challenge
  currentQIndex : Nat
  tablePreviews : List (String × List Row)
  expectedResult : Option (List Row)
  expectedError : Option String
  userQuery : String
  queryResult : Option (List Row)
  feedback : Option Feedback
  activeTab : Tab
deriving DecidableEq, Repr

/-- Outcome of the fetch to /api/generate plus JSON.parse of the cleaned
text (part_000 lines 196-220): either some thrown error message (network
failure, data.error, missing candidates, or a JSON parse error), or the
parsed and shape-normalized challenge document. -/
inductive GenOutcome where
  | genError (msg : String)
  | parsed (cd : Challenge)
deriving Repr

/-! ## JSON.stringify model for result comparison (part_000 lines 317-318) -/

def jsonEscapeChars : List Char → List Char
  | [] => []
  | c :: rest =>
    if c = '\\' then '\\' :: '\\' :: jsonEscapeChars rest
    else if c = '\"' then '\\' :: '\"' :: jsonEscapeChars rest
    else if c = '\n' then '\\' :: 'n' :: jsonEscapeChars rest
    else if c = '\t' then '\\' :: 't' :: jsonEscapeChars rest
    else if c = '\r' then '\\' :: 'r' :: jsonEscapeChars rest
    else c :: jsonEscapeChars rest

def jsonEscape (s : String) : String :=
  String.mk (jsonEscapeChars s.data)

def stringifyValue : SqlValue → String
  | .int i => toString i
  | .str s => "\"" ++ jsonEscape s ++ "\""
  | .null => "null"

def stringifyRow (r : Row) : String :=
  "\x7b" ++ String.intercalate ","
    (r.map (fun kv => "\"" ++ jsonEscape kv.1 ++ "\":" ++ stringifyValue kv.2)) ++ "\x7d"

/-- JSON.stringify of an array of row objects, as compared by
handleRunQuery (part_000 lines 317-320). -/
def stringifyRows (rs : List Row) : String :=
  "[" ++ String.intercalate "," (rs.map stringifyRow) ++ "]"

/-! ## Whitespace, trimming and semicolon splitting -/

def isJsWs (c : Char) : Bool :=
  c = ' ' || c = '\t' || c = '\n' || c = '\r' || c = Char.ofNat 11 || c = Char.ofNat 12

def trimL (cs : List Char) : List Char := cs.dropWhile isJsWs

def trimR (cs : List Char) : List Char := (cs.reverse.dropWhile isJsWs).reverse

def trimBoth (cs : List Char) : List Char := trimR (trimL cs)

/-- JavaScript String.prototype.trim on the character-list model. -/
def jsTrim (s : String) : String := String.mk (trimBoth s.data)

/-- JavaScript `str.split(';')` (part_000 line 231). -/
def splitSemisAux : List Char → List Char → List (List Char)
  | [], cur => [cur.reverse]
  | c :: rest, cur =>
    if c = ';' then cur.reverse :: splitSemisAux rest []
    else splitSemisAux rest (c :: cur)

/-- `data_sql.split(';').filter(s => s.trim().length > 0)` (line 231). -/
def splitData (dataSql : String) : List String :=
  ((splitSemisAux dataSql.data []).map String.mk).filter (fun s => jsTrim s ≠ "")

/-! ## Session state machine operations -/

/-- Per-statement tolerant data loading (part_000 lines 232-234): each
statement runs in its own try/catch; a failure is logged and skipped and
the loop continues with the same database handle. -/
def loadData {Db : Type} (E : Engine Db) (db : Db) (stmts : List String) : Db :=
  stmts.foldl (fun d stmt => (E.runStmt d stmt).2) db

/-- Error message stand-in for the TypeError raised when dbRef.current is
null and a method is invoked on it. -/
def nullEngineMsg : String := "Cannot read properties of null"

/-- The state clearing performed at the start of every generation attempt
(part_000 lines 117-125), after input validation passed. -/
def clearForGenerate {Db : Type} (s : AppState Db) : AppState Db :=
  { s with isLoading := true, challenge := none, currentQIndex := 0,
           tablePreviews := [], expectedResult := none, expectedError := none,
           queryResult := none, feedback := none, userQuery := "" }

/-- Lines 222-269 of part_000: replace the database with a fresh instance
when the engine is loaded, apply schema (fatal on error: the throw lands in
the outer catch), apply data statements tolerantly, compute previews, set
the challenge, eagerly execute the first question's reference solution,
and set the editor and success feedback. `s` is the already cleared state. -/
def applyChallenge {Db : Type} (E : Engine Db) (s : AppState Db) (cd : Challenge) : AppState Db :=
  let db0 : Option Db := if s.sqlLoaded then some E.newDatabase else s.db
  match db0 with
  | none =>
    { s with feedback := some ⟨.error, "Generation failed: " ++ nullEngineMsg⟩ }
  | some dbFresh =>
    match E.runStmt dbFresh cd.schema_sql with
    | (some e, dbBad) =>
      { s with db := some dbBad,
               feedback := some ⟨.error, "Generation failed: " ++ e⟩ }
    | (none, db1) =>
      let db2 := loadData E db1 (splitData cd.data_sql)
      let s1 := { s with db := some db2, tablePreviews := E.previews db2,
                         challenge := some cd }
      let s2 :=
        match cd.questions with
        | [] => s1
        | q0 :: _ =>
          match E.execQuery db2 q0.solution_sql with
          | (.ok rows, db3) =>
            { s1 with db := some db3, expectedResult := some rows, expectedError := none }
          | (.error e, db3) =>
            { s1 with db := some db3, expectedResult := none, expectedError := some e }
      { s2 with userQuery := "SELECT * FROM ...",
                feedback := some ⟨.success,
                  if s.mode = Mode.company then "Interview Loop Ready!"
                  else "Challenge generated!"⟩ }

/-- generateChallenge (part_000 lines 107-277): input validation (early
return, nothing cleared), then clearing, then the try/catch/finally around
fetch, parse, and challenge application. -/
def generateChallenge {Db : Type} (E : Engine Db) (s : AppState Db)
    (outcome : GenOutcome) : AppState Db :=
  if s.mode = Mode.manual ∧ s.topic = "" then
    { s with feedback := some ⟨.error, "Please enter a topic."⟩ }
  else if s.mode = Mode.company ∧ s.companyName = "" then
    { s with feedback := some ⟨.error, "Please enter a company name."⟩ }
  else
    let s1 := clearForGenerate s
    let s2 :=
      match outcome with
      | .genError m => { s1 with feedback := some ⟨.error, "Generation failed: " ++ m⟩ }
      | .parsed cd => applyChallenge E s1 cd
    { s2 with isLoading := false }

/-- handleQuestionChange (part_000 lines 279-297). -/
def handleQuestionChange {Db : Type} (E : Engine Db) (s : AppState Db)
    (newIndex : Int) : AppState Db :=
  match s.challenge with
  | none => s
  | some ch =>
    if newIndex < 0 ∨ (ch.questions.length : Int) ≤ newIndex then s
    else
      let s1 := { s with currentQIndex := newIndex.toNat,
                         userQuery := "SELECT * FROM ...", queryResult := none,
                         feedback := none, activeTab := Tab.editor }
      match ch.questions[newIndex.toNat]? with
      | none => s1
      | some q =>
        match s1.db with
        | none => { s1 with expectedResult := none, expectedError := some nullEngineMsg }
        | some db =>
          match E.execQuery db q.solution_sql with
          | (.ok rows, db1) =>
            { s1 with db := some db1, expectedResult := some rows, expectedError := none }
          | (.error e, db1) =>
            { s1 with db := some db1, expectedResult := none, expectedError := some e }

/-- executeSql (part_000 lines 95-104). -/
def executeSql {Db : Type} (E : Engine Db) (db? : Option Db) (query : String) :
    Except String (List Row) × Option Db :=
  match db? with
  | none => (.error "SQL Engine not loaded yet.", none)
  | some db =>
    let r := E.execQuery db query
    (r.1, some r.2)

def correctMsg : String := "🎉 Correct! Your output matches the solution."

def incorrectMsg : String := "❌ Incorrect. Output differs from the expected solution."

def validateFailMsg : String := "Could not validate. Check logic manually."

/-- handleRunQuery (part_000 lines 299-329): run the user query first on the
live database, then execute the current question's solution on the same
(now possibly mutated) database and compare the JSON.stringify encodings. -/
def handleRunQuery {Db : Type} (E : Engine Db) (s : AppState Db) : AppState Db :=
  match s.challenge with
  | none => s
  | some ch =>
    let currentQ := ch.questions[s.currentQIndex]?
    match executeSql E s.db s.userQuery with
    | (.error e, db?) =>
      { s with db := db?, feedback := some ⟨.error, "SQL Error: " ++ e⟩,
               queryResult := none }
    | (.ok rows, db?) =>
      let s1 := { s with db := db?, queryResult := some rows }
      match currentQ, db? with
      | some q, some db1 =>
        match E.execQuery db1 q.solution_sql with
        | (.ok solRows, db2) =>
          if stringifyRows rows == stringifyRows solRows then
            { s1 with db := some db2, feedback := some ⟨.success, correctMsg⟩ }
          else
            { s1 with db := some db2, feedback := some ⟨.error, incorrectMsg⟩ }
        | (.error _, db2) =>
          { s1 with db := some db2, feedback := some ⟨.error, validateFailMsg⟩ }
      | _, _ => { s1 with feedback := some ⟨.error, validateFailMsg⟩ }

/-! ## Raw challenge documents and shape normalization (part_000 lines 209-220)

The document as JSON.parse returns it: every field may be absent
(undefined), and the back-compat branch wraps a flat single-question
document into a one-element `questions` array. -/

structure RawQuestion where
  title : Option String
  difficulty : Option String
  tags : Option (List String)
  question : Option String
  solution_sql : Option String
  explanation : Option String
deriving DecidableEq, Repr

structure RawDoc where
  schema_sql : Option String
  data_sql : Option String
  questions : Option (List RawQuestion)
  title : Option String
  difficulty : Option String
  tags : Option (List String)
  question : Option String
  solution_sql : Option String
  explanation : Option String
deriving DecidableEq, Repr

/-- JavaScript truthiness of an optional string field: absent and the
empty string are falsy. -/
def truthyStr : Option String → Bool
  | none => false
  | some s => s ≠ ""

/-- Lines 211-220: `if (!challengeData.questions && challengeData.question)`
wrap the flat fields into a one-element questions array, with
`tags: challengeData.tags || []`.  An array value for `questions` is always
truthy, so only an absent `questions` field takes the branch. -/
def normalizeDoc (d : RawDoc) : RawDoc :=
  if d.questions.isNone && truthyStr d.question then
    { d with questions := some [⟨d.title, d.difficulty, some (d.tags.getD []),
                                d.question, d.solution_sql, d.explanation⟩] }
  else d

/-! ## Generation proxy endpoint (src/src/app/api/generate/route.ts)

`keyToUse = apiKey || process.env.GEMINI_API_KEY`; with no key the handler
returns a 400 JSON error without calling the provider; otherwise it
forwards the prompt using `keyToUse`.  An absent key and an empty-string
key are both falsy, so both are modelled as the empty string. -/

inductive PostResponse where
  | errorResponse (status : Nat) (msg : String)
  | forwarded (key : String)
deriving DecidableEq, Repr

def missingKeyMsg : String := "API Key is missing. Please provide one or configure the server."

def postHandler (apiKey envKey : String) : PostResponse :=
  let keyToUse := if apiKey = "" then envKey else apiKey
  if keyToUse = "" then PostResponse.errorResponse 400 missingKeyMsg
  else PostResponse.forwarded keyToUse

/-! ## Python page (src/src/app/python/page.tsx)

The Pyodide interpreter is initialized once (lines 62-113) and held in
component state; generateChallenge (lines 131-197) only writes the dataset
CSV into the interpreter's virtual filesystem and swaps the challenge - it
never replaces or resets the interpreter.  handleRunCode (lines 200-243)
resets stdout capture and clears figures, then runs the user code in the
same global namespace. -/

structure PyEngine (Py : Type) where
  writeFile : Py → String → String → Py
  resetIO : Py → Py
  runCode : Py → String → Option String × Py
  getStdout : Py → String
  plotCheck : Py → String

structure PyChallenge where
  title : String
  dataset_description : String
  task_details : String
  question : String
  starter_code : String
  solution_code : String
  explanation : String
deriving DecidableEq, Repr

structure PyState (Py : Type) where
  pyodide : Option Py
  challenge : Option PyChallenge
  userCode : String
  output : String
  plotImage : Option String
  isRunning : Bool
  isGenerating : Bool
  activeTab : Tab
  selectedDataset : String
deriving DecidableEq, Repr

inductive PyGenOutcome where
  | genError (msg : String)
  | parsed (pc : PyChallenge)
deriving Repr

def datasetIds : List String := ["titanic", "housing", "iris"]

/-- generateChallenge of the Python page (lines 131-197).  `fetchRes` is
the outcome of fetching the dataset CSV (loadDatasetToPython catches its
own failure, sets the output and lets generation continue; its return
value is ignored by the caller); `outcome` is the generation-request
outcome. -/
def pyGenerateChallenge {Py : Type} (E : PyEngine Py) (s : PyState Py)
    (fetchRes : Except String String) (outcome : PyGenOutcome) : PyState Py :=
  let s1 := { s with isGenerating := true, challenge := none, output := "",
                     plotImage := none, activeTab := Tab.editor }
  let s2 :=
    if datasetIds.contains s1.selectedDataset then
      match s1.pyodide with
      | none => s1
      | some py =>
        match fetchRes with
        | .ok csv =>
          { s1 with pyodide := some (E.writeFile py (s1.selectedDataset ++ ".csv") csv) }
        | .error e => { s1 with output := "Error loading dataset: " ++ e }
    else s1
  match outcome with
  | .genError m => { s2 with output := "Generation Error: " ++ m, isGenerating := false }
  | .parsed pc =>
    { s2 with challenge := some pc, userCode := pc.starter_code, isGenerating := false }

/-- handleRunCode of the Python page (lines 200-243). -/
def pyHandleRunCode {Py : Type} (E : PyEngine Py) (s : PyState Py) : PyState Py :=
  match s.pyodide with
  | none => s
  | some py =>
    let s1 := { s with isRunning := true, output := "", plotImage := none }
    let py1 := E.resetIO py
    match E.runCode py1 s.userCode with
    | (some e, py2) =>
      { s1 with pyodide := some py2, output := "Traceback:\n" ++ e, isRunning := false }
    | (none, py2) =>
      let img := E.plotCheck py2
      { s1 with pyodide := some py2, output := E.getStdout py2,
                plotImage := if img ≠ "" then some ("data:image/png;base64," ++ img) else none,
                isRunning := false }

/-- A concrete Pyodide stand-in: a global namespace of integer variables, a
virtual filesystem, and a stdout buffer. -/
structure ToyPy where
  globals : List (String × Int)
  files : List (String × String)
  stdoutBuf : String
deriving DecidableEq, Repr

def toyPyEngine : PyEngine ToyPy where
  writeFile py n c := { py with files := (n, c) :: py.files }
  resetIO py := { py with stdoutBuf := "" }
  runCode py code :=
    if code = "leak = 1" then (none, { py with globals := ("leak", 1) :: py.globals })
    else (none, py)
  getStdout py := py.stdoutBuf
  plotCheck _ := ""

/-! ## cleanJson (part_000 lines 76-80)

`text.replace(/```json\s*|\s*```/g, '').trim().replace(/\\'/g, "'")`.

The global replace scans left to right; at each position the first
alternative (the literal fence opener followed by a greedy whitespace run)
is tried before the second (a greedy whitespace run followed by three
backticks).  Greedy `\s*` with a following backtick requirement matches
exactly the maximal whitespace run or fails: a shorter run would leave a
whitespace character where a backtick is required. -/

def btick : Char := Char.ofNat 96

def apos : Char := Char.ofNat 39

/-- The three-backtick closing marker. -/
def tripleChars : List Char := "```".data

/-- The seven characters of the json fence opener. -/
def fenceChars : List Char := "```json".data

/-- Does the text start with three backticks? -/
def tripleAt (cs : List Char) : Bool := cs.take 3 == tripleChars

/-- Does the text start with the seven characters of the json fence opener? -/
def fenceAt (cs : List Char) : Bool := cs.take 7 == fenceChars

/-- One pass of the global fence-deleting replace, with fuel for structural
termination; every step consumes at least one character, so fuel equal to
the length of the text suffices. -/
def scanAux : Nat → List Char → List Char
  | 0, _ => []
  | _, [] => []
  | Nat.succ fuel, c :: rest =>
    if fenceAt (c :: rest) then
      scanAux fuel (((c :: rest).drop 7).dropWhile isJsWs)
    else if tripleAt ((c :: rest).dropWhile isJsWs) then
      scanAux fuel (((c :: rest).dropWhile isJsWs).drop 3)
    else c :: scanAux fuel rest

/-- `text.replace(/```json\s*|\s*```/g, '')` on the character-list model. -/
def scan (cs : List Char) : List Char := scanAux cs.length cs

/-- `.replace(/\\'/g, "'")` (line 78), scanning left to right without
overlapping matches. -/
def replaceEsc : List Char → List Char
  | [] => []
  | [a] => [a]
  | a :: b :: rest =>
    if a = '\\' && b = apos then apos :: replaceEsc rest
    else a :: replaceEsc (b :: rest)

/-- cleanJson (lines 76-80): strip fence markers, trim, unescape quotes. -/
def cleanJson (text : String) : String :=
  String.mk (replaceEsc (trimBoth (scan text.data)))

/-- A document wrapped in json code-fence markers, as in the model output
shape the parser tolerates. -/
def fenceWrap (t : String) : String := "```json\n" ++ t ++ "\n```"

/-- The four characters the fence wrapper appends. -/
def sfx : List Char := "\n```".data

/-! ## A small concrete engine used for witnesses and counterexamples

The database is a single row counter.  "ADD" is a valid insert-style
statement, any other statement fails leaving the database unchanged.
"COUNT" reads the counter, "POPCOUNT" reads it and then clears it
(a result-returning, mutating query), "DELETE" clears it. -/

def toyEngine : Engine Int where
  newDatabase := 0
  runStmt db s := if s = "ADD" then (none, db + 1) else (some "bad statement", db)
  execQuery db q :=
    if q = "COUNT" then (.ok [[("n", SqlValue.int db)]], db)
    else if q = "POPCOUNT" then (.ok [[("n", SqlValue.int db)]], 0)
    else if q = "DELETE" then (.ok [], 0)
    else (.error "syntax error", db)
  previews _ := []

instance exceptDecEq {α β : Type} [DecidableEq α] [DecidableEq β] :
    DecidableEq (Except α β) := fun a b =>
  match a, b with
  | .ok x, .ok y =>
    if h : x = y then isTrue (congrArg Except.ok h)
    else isFalse (fun hc => h (Except.ok.inj hc))
  | .error x, .error y =>
    if h : x = y then isTrue (congrArg Except.error h)
    else isFalse (fun hc => h (Except.error.inj hc))
  | .ok _, .error _ => isFalse (fun hc => Except.noConfusion hc)
  | .error _, .ok _ => isFalse (fun hc => Except.noConfusion hc)

/-! ## Concrete fixtures for witnesses and counterexamples -/

def qCount : Question := ⟨"A", "Easy", [], "how many rows", "COUNT", "count the rows"⟩

def chA : Challenge := ⟨"ADD", "ADD", [qCount]⟩

def stA : AppState Int :=
  { mode := Mode.auto, topic := "", companyName := "", difficulty := "Medium",
    isLoading := false, sqlLoaded := true, db := some 3, challenge := some chA,
    currentQIndex := 0, tablePreviews := [],
    expectedResult := some [[("n", SqlValue.int 3)]], expectedError := none,
    userQuery := "COUNT", queryResult := none, feedback := none,
    activeTab := Tab.editor }

def stB : AppState Int := { stA with db := some 1, userQuery := "POPCOUNT" }

def stC : AppState Int :=
  { stA with mode := Mode.company, companyName := "Acme", db := some 7,
             challenge := none }

def rawFlatDoc : RawDoc :=
  { schema_sql := some "CREATE TABLE x(id INT)", data_sql := some "INSERT INTO x VALUES (1)",
    questions := none, title := some "T", difficulty := some "Easy",
    tags := some ["t1", "t2"], question := some "Q", solution_sql := some "S",
    explanation := some "E" }

def pcA : PyChallenge := ⟨"A", "dataset a", "task a", "question a", "start a", "sol a", "expl a"⟩

def pcB : PyChallenge := ⟨"B", "dataset b", "task b", "question b", "start b", "sol b", "expl b"⟩

def pyStA : PyState ToyPy :=
  { pyodide := some ⟨[], [], ""⟩, challenge := some pcA, userCode := "leak = 1",
    output := "", plotImage := none, isRunning := false, isGenerating := false,
    activeTab := Tab.editor, selectedDataset := "titanic" }

end DSPad

namespace DSPad

/-! # Theorems settling the claims -/

/-- Claim C4: result comparison is structural equality over the ordered
sequence of row-mappings and is order-sensitive: identical sequences
compare equal, and the two-row example sequences in swapped order do not. -/
theorem comparison_order_sensitive :
    (∀ rs : List Row, (stringifyRows rs == stringifyRows rs) = true) ∧
    (stringifyRows [[("a", SqlValue.int 1)], [("a", SqlValue.int 2)]] ==
       stringifyRows [[("a", SqlValue.int 2)], [("a", SqlValue.int 1)]]) = false := by
  refine ⟨fun rs => ?_, by decide⟩
  exact beq_self_eq_true _

/-- Claim C5: a parsed document with a flat top-level truthy `question`
field and no `questions` array is normalized into a one-element questions
sequence whose single element carries the flat document's title,
difficulty, tags, question, solution_sql and explanation, while the rest
of the document is unchanged. -/
theorem normalize_flat_question (d : RawDoc) (q : String) (ts : List String)
    (h1 : d.questions = none) (h2 : d.question = some q) (h3 : q ≠ "")
    (h4 : d.tags = some ts) :
    (normalizeDoc d).questions =
      some [⟨d.title, d.difficulty, some ts, some q, d.solution_sql, d.explanation⟩] ∧
    (normalizeDoc d).schema_sql = d.schema_sql ∧
    (normalizeDoc d).data_sql = d.data_sql ∧
    (normalizeDoc d).title = d.title ∧
    (normalizeDoc d).question = d.question := by
  simp [normalizeDoc, h1, h2, h3, h4, truthyStr]

theorem normalize_flat_question_witness :
    (normalizeDoc rawFlatDoc).questions =
      some [⟨some "T", some "Easy", some ["t1", "t2"], some "Q", some "S", some "E"⟩] ∧
    (normalizeDoc rawFlatDoc).schema_sql = some "CREATE TABLE x(id INT)" := by
  have h := normalize_flat_question rawFlatDoc "Q" ["t1", "t2"] rfl rfl (by decide) rfl
  exact ⟨h.1, h.2.1⟩

/-- Claim C6: with no caller key and no server default the proxy returns a
400 error response and never reaches the forwarding call; a caller key is
used in preference to the server default. -/
theorem post_key_resolution (apiKey envKey : String) :
    (apiKey = "" → envKey = "" →
      postHandler apiKey envKey = PostResponse.errorResponse 400 missingKeyMsg) ∧
    (apiKey ≠ "" → postHandler apiKey envKey = PostResponse.forwarded apiKey) := by
  constructor
  · intro h1 h2
    simp [postHandler, h1, h2]
  · intro h
    simp [postHandler, h]

theorem post_key_resolution_witness :
    postHandler "" "" = PostResponse.errorResponse 400 missingKeyMsg ∧
    postHandler "callerKey" "serverKey" = PostResponse.forwarded "callerKey" :=
  ⟨(post_key_resolution "" "").1 rfl rfl,
   (post_key_resolution "callerKey" "serverKey").2 (by decide)⟩

/-- Claim C10: with a loaded challenge, handleQuestionChange with an index
below zero or at or above the number of questions is a complete no-op on
the state. -/
theorem question_change_out_of_range_noop {Db : Type} (E : Engine Db)
    (s : AppState Db) (ch : Challenge) (i : Int) (h1 : s.challenge = some ch)
    (h2 : i < 0 ∨ (ch.questions.length : Int) ≤ i) :
    handleQuestionChange E s i = s := by
  unfold handleQuestionChange
  rw [h1]
  simp [h2]

theorem question_change_out_of_range_noop_witness :
    handleQuestionChange toyEngine stA (-1) = stA ∧
    handleQuestionChange toyEngine stA 1 = stA :=
  ⟨question_change_out_of_range_noop toyEngine stA chA (-1) rfl (by decide),
   question_change_out_of_range_noop toyEngine stA chA 1 rfl (by decide)⟩

/-- Claim C1 (counterexample): the code clears the challenge before the
generation attempt, so after a failed generateChallenge call the prior
valid challenge is no longer shown: from a state displaying challenge
`chA`, a failed generation leaves no challenge at all. -/
theorem generate_failure_loses_challenge_cex :
    stA.challenge = some chA ∧
    (generateChallenge toyEngine stA (GenOutcome.genError "network error")).challenge = none ∧
    (generateChallenge toyEngine stA (GenOutcome.genError "network error")).expectedResult = none ∧
    (generateChallenge toyEngine stA (GenOutcome.genError "network error")).userQuery = "" := by
  decide

/-- Claim C1 (amended): generateChallenge clears the previously displayed
challenge and its session state at the start of every attempt that passes
input validation (clear-then-build); after a failed attempt - a
generation/parse error or a schema application error - the state shows no
challenge and carries the failure feedback, with loading reset. -/
theorem generate_failure_clears_state {Db : Type} (E : Engine Db)
    (s : AppState Db) (msg : String) (cd : Challenge) (e : String) (dbBad : Db)
    (hv1 : ¬(s.mode = Mode.manual ∧ s.topic = ""))
    (hv2 : ¬(s.mode = Mode.company ∧ s.companyName = ""))
    (hsql : s.sqlLoaded = true)
    (hschema : E.runStmt E.newDatabase cd.schema_sql = (some e, dbBad)) :
    ((generateChallenge E s (GenOutcome.genError msg)).challenge = none ∧
     (generateChallenge E s (GenOutcome.genError msg)).feedback =
       some ⟨FType.error, "Generation failed: " ++ msg⟩ ∧
     (generateChallenge E s (GenOutcome.genError msg)).userQuery = "" ∧
     (generateChallenge E s (GenOutcome.genError msg)).expectedResult = none ∧
     (generateChallenge E s (GenOutcome.genError msg)).isLoading = false) ∧
    ((generateChallenge E s (GenOutcome.parsed cd)).challenge = none ∧
     (generateChallenge E s (GenOutcome.parsed cd)).feedback =
       some ⟨FType.error, "Generation failed: " ++ e⟩) := by
  unfold generateChallenge applyChallenge clearForGenerate
  simp [hv1, hv2, hsql, hschema]

theorem generate_failure_clears_state_witness :
    ((generateChallenge toyEngine stA (GenOutcome.genError "boom")).challenge = none ∧
     (generateChallenge toyEngine stA (GenOutcome.genError "boom")).feedback =
       some ⟨FType.error, "Generation failed: boom"⟩ ∧
     (generateChallenge toyEngine stA (GenOutcome.genError "boom")).userQuery = "" ∧
     (generateChallenge toyEngine stA (GenOutcome.genError "boom")).expectedResult = none ∧
     (generateChallenge toyEngine stA (GenOutcome.genError "boom")).isLoading = false) ∧
    ((generateChallenge toyEngine stA (GenOutcome.parsed ⟨"XX", "", []⟩)).challenge = none ∧
     (generateChallenge toyEngine stA (GenOutcome.parsed ⟨"XX", "", []⟩)).feedback =
       some ⟨FType.error, "Generation failed: bad statement"⟩) :=
  generate_failure_clears_state toyEngine stA "boom" ⟨"XX", "", []⟩ "bad statement" 0
    (by decide) (by decide) rfl rfl

/-- Claim C2 (counterexample): handleRunQuery executes the user's query
first and then the reference solution on the same database instance.  From
database state 1, the user query POPCOUNT returns the row (n, 1) - exactly
what the reference COUNT yields on the pre-query state - and clears the
database; the code nevertheless reports a mismatch because it computed the
reference on the mutated state, contradicting the claim that the compared
reference is computed on a state not yet mutated by the user's query. -/
theorem run_query_reference_post_mutation_cex :
    (toyEngine.execQuery 1 "POPCOUNT").1 = Except.ok [[("n", SqlValue.int 1)]] ∧
    (toyEngine.execQuery 1 "COUNT").1 = Except.ok [[("n", SqlValue.int 1)]] ∧
    stB.db = some 1 ∧ stB.userQuery = "POPCOUNT" ∧
    stB.challenge = some chA ∧ qCount.solution_sql = "COUNT" ∧
    (handleRunQuery toyEngine stB).queryResult = some [[("n", SqlValue.int 1)]] ∧
    (handleRunQuery toyEngine stB).feedback = some ⟨FType.error, incorrectMsg⟩ := by
  decide

/-- Claim C2 (amended): the reference solution is executed after the user's
query on the same live database; when the user's query leaves the database
state unchanged, the comparison feedback is exactly the comparison of the
user's rows against the reference solution executed on the pre-query
database state. -/
theorem run_query_reference_pre_state_for_pure_query {Db : Type} (E : Engine Db)
    (s : AppState Db) (ch : Challenge) (q : Question) (rows : List Row) (db : Db)
    (h1 : s.challenge = some ch) (h2 : s.db = some db)
    (h3 : ch.questions[s.currentQIndex]? = some q)
    (h4 : E.execQuery db s.userQuery = (Except.ok rows, db)) :
    (handleRunQuery E s).feedback = some (
      match (E.execQuery db q.solution_sql).1 with
      | .ok solRows =>
        if stringifyRows rows == stringifyRows solRows then
          (⟨FType.success, correctMsg⟩ : Feedback)
        else ⟨FType.error, incorrectMsg⟩
      | .error _ => ⟨FType.error, validateFailMsg⟩) := by
  rcases hsol : E.execQuery db q.solution_sql with ⟨res, db2⟩
  cases res with
  | ok solRows =>
    by_cases hmatch : stringifyRows rows == stringifyRows solRows
    · simp [handleRunQuery, executeSql, h1, h2, h3, h4, hsol, hmatch]
    · simp [handleRunQuery, executeSql, h1, h2, h3, h4, hsol, hmatch]
  | error e => simp [handleRunQuery, executeSql, h1, h2, h3, h4, hsol]

theorem run_query_reference_pre_state_for_pure_query_witness :
    (handleRunQuery toyEngine stA).feedback = some ⟨FType.success, correctMsg⟩ := by
  have h := run_query_reference_pre_state_for_pure_query toyEngine stA chA qCount
    [[("n", SqlValue.int 3)]] 3 rfl rfl rfl rfl
  exact h.trans (by decide)

/-- Claim C3 (counterexample): the Python page never replaces or resets the
Pyodide interpreter when a new challenge is generated; a variable defined
by user code run while challenge A was loaded is still present in the
interpreter's globals after challenge B successfully loads. -/
theorem python_variable_leaks_across_challenges_cex :
    pyStA.challenge = some pcA ∧
    (pyHandleRunCode toyPyEngine pyStA).pyodide = some ⟨[("leak", 1)], [], ""⟩ ∧
    (pyGenerateChallenge toyPyEngine (pyHandleRunCode toyPyEngine pyStA)
        (Except.ok "csv,data") (PyGenOutcome.parsed pcB)).challenge = some pcB ∧
    (pyGenerateChallenge toyPyEngine (pyHandleRunCode toyPyEngine pyStA)
        (Except.ok "csv,data") (PyGenOutcome.parsed pcB)).pyodide =
      some ⟨[("leak", 1)], [("titanic.csv", "csv,data")], ""⟩ := by
  decide

/-- Claim C3 (amended): in the SQL variant, a generation attempt that
passes validation with a loaded engine replaces the database with a fresh
instance, so the database after processing a parsed challenge is
independent of all prior session state - no table created under a previous
challenge can be visible; in the Python variant the interpreter instance
is retained across generations (see the counterexample). -/
theorem sql_reload_db_independent_of_prior {Db : Type} (E : Engine Db)
    (s t : AppState Db) (cd : Challenge)
    (hs1 : s.sqlLoaded = true) (ht1 : t.sqlLoaded = true)
    (hsv1 : ¬(s.mode = Mode.manual ∧ s.topic = ""))
    (hsv2 : ¬(s.mode = Mode.company ∧ s.companyName = ""))
    (htv1 : ¬(t.mode = Mode.manual ∧ t.topic = ""))
    (htv2 : ¬(t.mode = Mode.company ∧ t.companyName = "")) :
    (generateChallenge E s (GenOutcome.parsed cd)).db =
      (generateChallenge E t (GenOutcome.parsed cd)).db := by
  unfold generateChallenge applyChallenge clearForGenerate
  rw [if_neg hsv1, if_neg hsv2, if_neg htv1, if_neg htv2]
  simp only [hs1, ht1, if_true]
  rcases hschema : E.runStmt E.newDatabase cd.schema_sql with ⟨err, db1⟩
  cases err with
  | none =>
    rcases hq : cd.questions with _ | ⟨q0, qs⟩
    · simp
    · rcases hex : E.execQuery (loadData E db1 (splitData cd.data_sql)) q0.solution_sql
        with ⟨res, db3⟩
      cases res with
      | ok rows => simp [hex]
      | error err => simp [hex]
  | some e => simp

theorem sql_reload_db_independent_of_prior_witness :
    (generateChallenge toyEngine stA (GenOutcome.parsed chA)).db =
      (generateChallenge toyEngine stC (GenOutcome.parsed chA)).db :=
  sql_reload_db_independent_of_prior toyEngine stA stC chA rfl rfl
    (by decide) (by decide) (by decide) (by decide)

/-- Claim C7: data loading is tolerant per statement - a failing insert
with no side effect is skipped and every later statement in the batch is
still applied from the same state - while a schema_sql failure aborts the
whole challenge load (no challenge is set and the error is surfaced), and
a schema success always installs the challenge no matter what the data
statements do. -/
theorem data_tolerant_schema_fatal {Db : Type} (E : Engine Db) (db : Db)
    (bad : String) (post : List String) (s : AppState Db)
    (cd cd2 : Challenge) (e : String) (dbBad dbOk : Db)
    (hbadFails : (E.runStmt db bad).1.isSome = true)
    (hbadKeeps : (E.runStmt db bad).2 = db)
    (hv1 : ¬(s.mode = Mode.manual ∧ s.topic = ""))
    (hv2 : ¬(s.mode = Mode.company ∧ s.companyName = ""))
    (hsql : s.sqlLoaded = true)
    (hschemaBad : E.runStmt E.newDatabase cd.schema_sql = (some e, dbBad))
    (hschemaOk : E.runStmt E.newDatabase cd2.schema_sql = (none, dbOk)) :
    loadData E db (bad :: post) = loadData E db post ∧
    (generateChallenge E s (GenOutcome.parsed cd)).challenge = none ∧
    (generateChallenge E s (GenOutcome.parsed cd)).feedback =
      some ⟨FType.error, "Generation failed: " ++ e⟩ ∧
    (generateChallenge E s (GenOutcome.parsed cd2)).challenge = some cd2 := by
  refine ⟨?_, ?_, ?_, ?_⟩
  · unfold loadData
    simp [hbadKeeps]
  · unfold generateChallenge applyChallenge clearForGenerate
    simp [hv1, hv2, hsql, hschemaBad]
  · unfold generateChallenge applyChallenge clearForGenerate
    simp [hv1, hv2, hsql, hschemaBad]
  · unfold generateChallenge applyChallenge clearForGenerate
    rcases hq : cd2.questions with _ | ⟨q0, qs⟩
    · simp [hv1, hv2, hsql, hschemaOk, hq]
    · rcases hex : E.execQuery (loadData E dbOk (splitData cd2.data_sql)) q0.solution_sql
        with ⟨res, db3⟩
      cases res with
      | ok rows => simp [hv1, hv2, hsql, hschemaOk, hq, hex]
      | error err => simp [hv1, hv2, hsql, hschemaOk, hq, hex]

theorem data_tolerant_schema_fatal_witness :
    loadData toyEngine 0 ["BAD", "ADD"] = loadData toyEngine 0 ["ADD"] ∧
    (generateChallenge toyEngine stA (GenOutcome.parsed ⟨"XX", "ADD", [qCount]⟩)).challenge = none ∧
    (generateChallenge toyEngine stA (GenOutcome.parsed ⟨"XX", "ADD", [qCount]⟩)).feedback =
      some ⟨FType.error, "Generation failed: bad statement"⟩ ∧
    (generateChallenge toyEngine stA (GenOutcome.parsed ⟨"ADD", "BAD;ADD", [qCount]⟩)).challenge =
      some ⟨"ADD", "BAD;ADD", [qCount]⟩ :=
  data_tolerant_schema_fatal toyEngine 0 "BAD" ["ADD"] stA
    ⟨"XX", "ADD", [qCount]⟩ ⟨"ADD", "BAD;ADD", [qCount]⟩ "bad statement" 0 1
    (by decide) (by decide) (by decide) (by decide) rfl rfl rfl

/-- Claim C8: with a loaded challenge and a live database, selecting the
same in-range question twice in a row yields identical reference results
when executing that question's solution leaves the database state
unchanged (no intervening environment mutation). -/
theorem question_change_idempotent {Db : Type} (E : Engine Db)
    (s : AppState Db) (ch : Challenge) (q : Question) (i : Int) (db : Db)
    (h1 : s.challenge = some ch) (h2 : s.db = some db)
    (h3 : 0 ≤ i) (h4 : i < (ch.questions.length : Int))
    (h5 : ch.questions[i.toNat]? = some q)
    (h6 : (E.execQuery db q.solution_sql).2 = db) :
    (handleQuestionChange E (handleQuestionChange E s i) i).expectedResult =
      (handleQuestionChange E s i).expectedResult ∧
    (handleQuestionChange E (handleQuestionChange E s i) i).expectedError =
      (handleQuestionChange E s i).expectedError := by
  have hguard : ¬(i < 0 ∨ (ch.questions.length : Int) ≤ i) := by omega
  rcases hex : E.execQuery db q.solution_sql with ⟨res, db1⟩
  have hdb1 : db1 = db := by
    have h := h6
    rw [hex] at h
    exact h
  subst hdb1
  cases res with
  | ok rows => simp [handleQuestionChange, h1, h2, h5, hex, hguard]
  | error err => simp [handleQuestionChange, h1, h2, h5, hex, hguard]

theorem question_change_idempotent_witness :
    (handleQuestionChange toyEngine (handleQuestionChange toyEngine stA 0) 0).expectedResult =
      (handleQuestionChange toyEngine stA 0).expectedResult ∧
    (handleQuestionChange toyEngine (handleQuestionChange toyEngine stA 0) 0).expectedError =
      (handleQuestionChange toyEngine stA 0).expectedError :=
  question_change_idempotent toyEngine stA chA qCount 0 3 rfl rfl (by decide) (by decide)
    rfl rfl

/-! ## Lemmas on the fence scanner, towards the round-trip property -/

lemma bool_eq_false {b : Bool} (h : ¬b = true) : b = false := Bool.eq_false_iff.mpr h

lemma ws_btick_false : isJsWs btick = false := by decide

lemma tripleAt_eq_true_iff {cs : List Char} : tripleAt cs = true ↔ cs.take 3 = tripleChars := by
  simp [tripleAt]

lemma fenceAt_eq_true_iff {cs : List Char} : fenceAt cs = true ↔ cs.take 7 = fenceChars := by
  simp [fenceAt]

lemma triple_head {c : Char} {l : List Char} (h : tripleAt (c :: l) = true) : c = btick := by
  rw [tripleAt_eq_true_iff] at h
  have h2 : tripleChars = btick :: btick :: btick :: [] := by decide
  rw [h2, List.take_succ_cons] at h
  exact (List.cons.inj h).1

lemma fence_head {c : Char} {l : List Char} (h : fenceAt (c :: l) = true) : c = btick := by
  rw [fenceAt_eq_true_iff] at h
  have h2 : fenceChars = btick :: btick :: btick :: 'j' :: 's' :: 'o' :: 'n' :: [] := by decide
  rw [h2, List.take_succ_cons] at h
  exact (List.cons.inj h).1

lemma fence_triple {cs : List Char} (h : fenceAt cs = true) : tripleAt cs = true := by
  rw [fenceAt_eq_true_iff] at h
  rw [tripleAt_eq_true_iff]
  have h3 : cs.take 3 = (cs.take 7).take 3 := by
    rw [List.take_take]
    norm_num
  rw [h3, h]
  decide

lemma triple_length {cs : List Char} (h : tripleAt cs = true) : 3 ≤ cs.length := by
  rw [tripleAt_eq_true_iff] at h
  have h2 := congrArg List.length h
  simp [List.length_take] at h2
  have h3 : tripleChars.length = 3 := by decide
  omega

lemma fence_length {cs : List Char} (h : fenceAt cs = true) : 7 ≤ cs.length := by
  rw [fenceAt_eq_true_iff] at h
  have h2 := congrArg List.length h
  simp [List.length_take] at h2
  have h3 : fenceChars.length = 7 := by decide
  omega

lemma tripleAt_short {cs : List Char} (h : cs.length < 3) : tripleAt cs = false := by
  cases htr : tripleAt cs with
  | false => rfl
  | true => exact absurd (triple_length htr) (by omega)

lemma fenceAt_short {cs : List Char} (h : cs.length < 7) : fenceAt cs = false := by
  cases hfa : fenceAt cs with
  | false => rfl
  | true => exact absurd (fence_length hfa) (by omega)

lemma take_append_sfx_ne_pat {u pat : List Char} {n : Nat}
    (hlen : u.length < n) (hpat : pat[u.length]? ≠ some '\n') :
    (u ++ sfx).take n ≠ pat := by
  intro h
  have h1 : ((u ++ sfx).take n)[u.length]? = (u ++ sfx)[u.length]? :=
    List.getElem?_take_of_lt hlen
  have h2 : (u ++ sfx)[u.length]? = some '\n' := by
    rw [List.getElem?_append_right le_rfl, Nat.sub_self]
    decide
  rw [h, h2] at h1
  exact hpat h1

lemma tripleAt_append_sfx (u : List Char) : tripleAt (u ++ sfx) = tripleAt u := by
  by_cases h3 : 3 ≤ u.length
  · simp [tripleAt, List.take_append_of_le_length h3]
  · have hru : tripleAt u = false := tripleAt_short (by omega)
    rw [hru]
    cases htr : tripleAt (u ++ sfx) with
    | false => rfl
    | true =>
      exfalso
      rw [tripleAt_eq_true_iff] at htr
      refine take_append_sfx_ne_pat (by omega) ?_ htr
      have hk : u.length < 3 := by omega
      set k := u.length with hkdef
      interval_cases k <;> decide

lemma fenceAt_append_sfx (u : List Char) : fenceAt (u ++ sfx) = fenceAt u := by
  by_cases h7 : 7 ≤ u.length
  · simp [fenceAt, List.take_append_of_le_length h7]
  · have hru : fenceAt u = false := fenceAt_short (by omega)
    rw [hru]
    cases hfa : fenceAt (u ++ sfx) with
    | false => rfl
    | true =>
      exfalso
      rw [fenceAt_eq_true_iff] at hfa
      refine take_append_sfx_ne_pat (by omega) ?_ hfa
      have hk : u.length < 7 := by omega
      set k := u.length with hkdef
      interval_cases k <;> decide


lemma dropWhile_append_of_ne_nil {α : Type} {p : α → Bool} {a b : List α}
    (h : a.dropWhile p ≠ []) : (a ++ b).dropWhile p = a.dropWhile p ++ b := by
  rw [List.dropWhile_append, if_neg]
  simpa [List.isEmpty_iff] using h

lemma dropWhile_head_not {α : Type} {p : α → Bool} {l : List α} {c : α} {r : List α}
    (h : l.dropWhile p = c :: r) : p c = false := by
  induction l with
  | nil => exact absurd h (by simp)
  | cons a l ih =>
    rw [List.dropWhile_cons] at h
    by_cases hp : p a = true
    · rw [if_pos hp] at h
      exact ih h
    · rw [if_neg hp] at h
      obtain ⟨h1, h2⟩ := List.cons.inj h
      rw [← h1]
      exact bool_eq_false hp

lemma dropWhile_idem {α : Type} {p : α → Bool} (l : List α) :
    (l.dropWhile p).dropWhile p = l.dropWhile p := by
  cases h : l.dropWhile p with
  | nil => rfl
  | cons a r => exact List.dropWhile_cons_of_neg (by simp [dropWhile_head_not h])

lemma scanAux_congr : ∀ (f g : Nat) (cs : List Char), cs.length ≤ f → cs.length ≤ g →
    scanAux f cs = scanAux g cs := by
  intro f
  induction f with
  | zero =>
    intro g cs hf hg
    have h0 : cs = [] := List.eq_nil_of_length_eq_zero (Nat.le_zero.mp hf)
    subst h0
    cases g <;> rfl
  | succ f ih =>
    intro g cs hf hg
    cases cs with
    | nil => cases g <;> rfl
    | cons c rest =>
      cases g with
      | zero => exact absurd hg (by simp)
      | succ g =>
        have hrf : rest.length ≤ f := by
          simp at hf
          omega
        have hrg : rest.length ≤ g := by
          simp at hg
          omega
        simp only [scanAux]
        by_cases h1 : fenceAt (c :: rest) = true
        · rw [if_pos h1, if_pos h1]
          have hx : (((c :: rest).drop 7).dropWhile isJsWs).length ≤ rest.length := by
            have h5 := (List.dropWhile_sublist (l := (c :: rest).drop 7) (p := isJsWs)).length_le
            have h6 : ((c :: rest).drop 7).length = rest.length + 1 - 7 := by
              simp [List.length_drop]
            omega
          exact ih _ _ (le_trans hx hrf) (le_trans hx hrg)
        · rw [if_neg h1, if_neg h1]
          by_cases h2 : tripleAt ((c :: rest).dropWhile isJsWs) = true
          · rw [if_pos h2, if_pos h2]
            have hx : (((c :: rest).dropWhile isJsWs).drop 3).length ≤ rest.length := by
              have h5 := (List.dropWhile_sublist (l := c :: rest) (p := isJsWs)).length_le
              have h6 := triple_length h2
              simp [List.length_drop] at *
              omega
            exact ih _ _ (le_trans hx hrf) (le_trans hx hrg)
          · rw [if_neg h2, if_neg h2]
            exact congrArg (List.cons c) (ih _ _ hrf hrg)

lemma scan_cons_fence {c : Char} {rest : List Char} (h : fenceAt (c :: rest) = true) :
    scan (c :: rest) = scan (((c :: rest).drop 7).dropWhile isJsWs) := by
  unfold scan
  conv_lhs => simp only [List.length_cons, scanAux]
  rw [if_pos h]
  apply scanAux_congr
  · have h5 := (List.dropWhile_sublist (l := (c :: rest).drop 7) (p := isJsWs)).length_le
    have h6 : ((c :: rest).drop 7).length = rest.length + 1 - 7 := by
      simp [List.length_drop]
    omega
  · exact le_rfl

lemma scan_cons_triple {c : Char} {rest : List Char} (h1 : fenceAt (c :: rest) = false)
    (h2 : tripleAt ((c :: rest).dropWhile isJsWs) = true) :
    scan (c :: rest) = scan (((c :: rest).dropWhile isJsWs).drop 3) := by
  unfold scan
  conv_lhs => simp only [List.length_cons, scanAux]
  rw [h1]
  simp only [Bool.false_eq_true, if_false]
  rw [if_pos h2]
  apply scanAux_congr
  · have h5 := (List.dropWhile_sublist (l := c :: rest) (p := isJsWs)).length_le
    have h6 := triple_length h2
    simp [List.length_drop] at *
    omega
  · exact le_rfl

lemma scan_cons_emit {c : Char} {rest : List Char} (h1 : fenceAt (c :: rest) = false)
    (h2 : tripleAt ((c :: rest).dropWhile isJsWs) = false) :
    scan (c :: rest) = c :: scan rest := by
  unfold scan
  conv_lhs => simp only [List.length_cons, scanAux]
  rw [h1, h2]
  simp


lemma fenceAt_ws_head {c : Char} {rest : List Char} (hc : isJsWs c = true) :
    fenceAt (c :: rest) = false := by
  cases h : fenceAt (c :: rest) with
  | false => rfl
  | true =>
    have hb := fence_head h
    rw [hb, ws_btick_false] at hc
    exact absurd hc (by decide)

lemma scan_allWs {u : List Char} (h : ∀ c ∈ u, isJsWs c = true) : scan u = u := by
  induction u with
  | nil => rfl
  | cons c rest ih =>
    have hc : isJsWs c = true := h c (List.mem_cons_self c rest)
    have hf : fenceAt (c :: rest) = false := fenceAt_ws_head hc
    have hdw : (c :: rest).dropWhile isJsWs = [] :=
      List.dropWhile_eq_nil_iff.mpr (fun x hx => h x hx)
    have ht : tripleAt ((c :: rest).dropWhile isJsWs) = false := by
      rw [hdw]
      decide
    rw [scan_cons_emit hf ht, ih (fun x hx => h x (List.mem_cons_of_mem c hx))]

lemma scan_ws_append {w m : List Char} (hw : ∀ c ∈ w, isJsWs c = true)
    (hm1 : ∀ d r, m = d :: r → isJsWs d = false) (hm2 : tripleAt m = false) :
    scan (w ++ m) = w ++ scan m := by
  induction w with
  | nil => simp
  | cons c w ih =>
    have hc : isJsWs c = true := hw c (List.mem_cons_self c w)
    have hf : fenceAt (c :: (w ++ m)) = false := fenceAt_ws_head hc
    have ht : tripleAt ((c :: (w ++ m)).dropWhile isJsWs) = false := by
      rw [List.dropWhile_cons_of_pos hc,
        List.dropWhile_append_of_pos (fun a ha => hw a (List.mem_cons_of_mem c ha))]
      cases m with
      | nil => decide
      | cons d r =>
        rw [List.dropWhile_cons_of_neg (by simp [hm1 d r rfl])]
        exact hm2
    rw [List.cons_append, scan_cons_emit hf ht,
      ih (fun x hx => hw x (List.mem_cons_of_mem c hx))]
    rfl

lemma scan_head_emit {d : Char} {r : List Char} (h1 : isJsWs d = false)
    (h2 : tripleAt (d :: r) = false) : scan (d :: r) = d :: scan r := by
  have hf : fenceAt (d :: r) = false := by
    cases hfa : fenceAt (d :: r) with
    | false => rfl
    | true =>
      have := fence_triple hfa
      rw [h2] at this
      exact absurd this (by decide)
  have ht : tripleAt ((d :: r).dropWhile isJsWs) = false := by
    rw [List.dropWhile_cons_of_neg (by simp [h1])]
    exact h2
  exact scan_cons_emit hf ht

lemma scan_contains_nonws {rest : List Char} {d : Char} {r2 : List Char}
    (hdw : rest.dropWhile isJsWs = d :: r2) (ht : tripleAt (d :: r2) = false) :
    ∃ x ∈ scan rest, isJsWs x = false := by
  have hd : isJsWs d = false := dropWhile_head_not hdw
  have hsplit : rest.takeWhile isJsWs ++ (d :: r2) = rest := by
    rw [← hdw]
    exact List.takeWhile_append_dropWhile isJsWs rest
  have hw : ∀ c ∈ rest.takeWhile isJsWs, isJsWs c = true :=
    fun c hc => List.mem_takeWhile_imp hc
  have hscan : scan rest = rest.takeWhile isJsWs ++ scan (d :: r2) := by
    conv_lhs => rw [← hsplit]
    refine scan_ws_append hw ?_ ht
    intro d2 r3 h
    obtain ⟨ha, hb⟩ := List.cons.inj h
    rw [← ha]
    exact hd
  rw [hscan, scan_head_emit hd ht]
  exact ⟨d, by simp, hd⟩

lemma trimR_eq_nil_iff {X : List Char} : trimR X = [] ↔ ∀ c ∈ X, isJsWs c = true := by
  simp [trimR, List.dropWhile_eq_nil_iff]

lemma trimR_cons_of_not_ws {c : Char} {X : List Char} (hc : isJsWs c = false) :
    trimR (c :: X) = c :: trimR X := by
  unfold trimR
  rw [List.reverse_cons]
  by_cases h : X.reverse.dropWhile isJsWs = []
  · rw [List.dropWhile_append_of_pos (List.dropWhile_eq_nil_iff.mp h),
      List.dropWhile_cons_of_neg (by simp [hc]), h]
    rfl
  · rw [dropWhile_append_of_ne_nil h, List.reverse_append]
    rfl

lemma trimR_cons_of_exists {c : Char} {X : List Char}
    (hx : ∃ x ∈ X, isJsWs x = false) : trimR (c :: X) = c :: trimR X := by
  have h : X.reverse.dropWhile isJsWs ≠ [] := by
    rw [Ne, List.dropWhile_eq_nil_iff]
    intro hall
    obtain ⟨x, hxX, hxw⟩ := hx
    have h2 := hall x (List.mem_reverse.mpr hxX)
    rw [hxw] at h2
    exact absurd h2 (by decide)
  unfold trimR
  rw [List.reverse_cons, dropWhile_append_of_ne_nil h, List.reverse_append]
  rfl

lemma trimR_idem (X : List Char) : trimR (trimR X) = trimR X := by
  simp [trimR, List.reverse_reverse, dropWhile_idem]

lemma trimL_ws_append {w X : List Char} (hw : ∀ c ∈ w, isJsWs c = true) :
    trimL (w ++ X) = trimL X := by
  unfold trimL
  exact List.dropWhile_append_of_pos hw

lemma trimL_trimR (X : List Char) : trimL (trimR X) = trimR (trimL X) := by
  induction X with
  | nil => rfl
  | cons c X ih =>
    by_cases hc : isJsWs c = true
    · by_cases hX : trimR X = []
      · have hall : ∀ x ∈ X, isJsWs x = true := trimR_eq_nil_iff.mp hX
        have h1 : trimR (c :: X) = [] := by
          refine trimR_eq_nil_iff.mpr ?_
          intro x hx
          rcases List.mem_cons.mp hx with h | h
          · rw [h]
            exact hc
          · exact hall x h
        have h2 : trimL (c :: X) = trimL X := by
          simp [trimL, List.dropWhile_cons_of_pos hc]
        have h3 : trimL X = [] := List.dropWhile_eq_nil_iff.mpr hall
        rw [h1, h2, h3]
        rfl
      · have hex : ∃ x ∈ X, isJsWs x = false := by
          by_contra hno
          refine hX (trimR_eq_nil_iff.mpr ?_)
          intro x hx
          cases hbx : isJsWs x with
          | true => rfl
          | false => exact absurd ⟨x, hx, hbx⟩ hno
        rw [trimR_cons_of_exists hex]
        have h2 : trimL (c :: X) = trimL X := by
          simp [trimL, List.dropWhile_cons_of_pos hc]
        have h4 : trimL (c :: trimR X) = trimL (trimR X) := by
          simp [trimL, List.dropWhile_cons_of_pos hc]
        rw [h4, h2, ih]
    · have hc2 : isJsWs c = false := bool_eq_false hc
      rw [trimR_cons_of_not_ws hc2]
      have h1 : trimL (c :: trimR X) = c :: trimR X := by
        unfold trimL
        exact List.dropWhile_cons_of_neg hc
      have h2 : trimL (c :: X) = c :: X := by
        unfold trimL
        exact List.dropWhile_cons_of_neg hc
      rw [h1, h2, trimR_cons_of_not_ws hc2]

lemma trimBoth_trimR (Y : List Char) : trimBoth (trimR Y) = trimBoth Y := by
  unfold trimBoth
  rw [trimL_trimR, trimR_idem]


lemma scan_append_sfx_aux : ∀ (n : Nat) (u : List Char), u.length ≤ n →
    scan (u ++ sfx) = trimR (scan u) := by
  intro n
  induction n with
  | zero =>
    intro u hu
    have h0 : u = [] := List.eq_nil_of_length_eq_zero (Nat.le_zero.mp hu)
    subst h0
    decide
  | succ n ih =>
    intro u hu
    cases u with
    | nil => decide
    | cons c rest =>
      have hrest : rest.length ≤ n := by
        simp at hu
        omega
      by_cases hfa : fenceAt ((c :: rest) ++ sfx) = true
      · have hfu : fenceAt (c :: rest) = true := by
          rw [fenceAt_append_sfx] at hfa
          exact hfa
        have h7 : 7 ≤ (c :: rest).length := fence_length hfu
        have hfa2 : fenceAt (c :: (rest ++ sfx)) = true := by
          rw [← List.cons_append]
          exact hfa
        have hstepL : scan ((c :: rest) ++ sfx) =
            scan (((c :: (rest ++ sfx)).drop 7).dropWhile isJsWs) := by
          rw [List.cons_append]
          exact scan_cons_fence hfa2
        have hdrop : (c :: (rest ++ sfx)).drop 7 = (c :: rest).drop 7 ++ sfx := by
          rw [← List.cons_append]
          exact List.drop_append_of_le_length h7
        have hstepR : scan (c :: rest) = scan (((c :: rest).drop 7).dropWhile isJsWs) :=
          scan_cons_fence hfu
        by_cases hrr : ((c :: rest).drop 7).dropWhile isJsWs = []
        · have hrws : ∀ x ∈ (c :: rest).drop 7, isJsWs x = true :=
            List.dropWhile_eq_nil_iff.mp hrr
          have h1 : ((c :: rest).drop 7 ++ sfx).dropWhile isJsWs = sfx.dropWhile isJsWs :=
            List.dropWhile_append_of_pos hrws
          have h2 : scan (sfx.dropWhile isJsWs) = [] := by decide
          rw [hstepL, hdrop, h1, h2, hstepR, hrr]
          decide
        · have h1 : ((c :: rest).drop 7 ++ sfx).dropWhile isJsWs =
              ((c :: rest).drop 7).dropWhile isJsWs ++ sfx :=
            dropWhile_append_of_ne_nil hrr
          have hlen : (((c :: rest).drop 7).dropWhile isJsWs).length ≤ n := by
            have h5 := (List.dropWhile_sublist (l := (c :: rest).drop 7) (p := isJsWs)).length_le
            have h6 : ((c :: rest).drop 7).length = rest.length + 1 - 7 := by
              simp [List.length_drop]
            omega
          rw [hstepL, hdrop, h1, ih _ hlen, hstepR]
      · have hfa2 : fenceAt ((c :: rest) ++ sfx) = false := bool_eq_false hfa
        have hfu : fenceAt (c :: rest) = false := by
          rw [← fenceAt_append_sfx]
          exact hfa2
        by_cases hta : tripleAt (((c :: rest) ++ sfx).dropWhile isJsWs) = true
        · by_cases hdu : (c :: rest).dropWhile isJsWs = []
          · have hall : ∀ x ∈ c :: rest, isJsWs x = true := List.dropWhile_eq_nil_iff.mp hdu
            have h1 : ((c :: rest) ++ sfx).dropWhile isJsWs = sfx.dropWhile isJsWs :=
              List.dropWhile_append_of_pos hall
            have hfa3 : fenceAt (c :: (rest ++ sfx)) = false := by
              rw [← List.cons_append]
              exact hfa2
            have hta3 : tripleAt ((c :: (rest ++ sfx)).dropWhile isJsWs) = true := by
              rw [← List.cons_append]
              exact hta
            have hstepL : scan ((c :: rest) ++ sfx) =
                scan (((c :: (rest ++ sfx)).dropWhile isJsWs).drop 3) := by
              rw [List.cons_append]
              exact scan_cons_triple hfa3 hta3
            have h2 : (c :: (rest ++ sfx)).dropWhile isJsWs = sfx.dropWhile isJsWs := by
              rw [← List.cons_append]
              exact h1
            have h3 : (sfx.dropWhile isJsWs).drop 3 = [] := by decide
            rw [hstepL, h2, h3]
            rw [scan_allWs hall]
            rw [show scan ([] : List Char) = [] from rfl]
            exact (trimR_eq_nil_iff.mpr hall).symm
          · obtain ⟨d, r2, hdr⟩ : ∃ d r2, (c :: rest).dropWhile isJsWs = d :: r2 := by
              cases h : (c :: rest).dropWhile isJsWs with
              | nil => exact absurd h hdu
              | cons d r2 => exact ⟨d, r2, rfl⟩
            have h1 : ((c :: rest) ++ sfx).dropWhile isJsWs = (d :: r2) ++ sfx := by
              rw [dropWhile_append_of_ne_nil hdu, hdr]
            have htu : tripleAt (d :: r2) = true := by
              rw [h1, tripleAt_append_sfx] at hta
              exact hta
            have h3 : 3 ≤ (d :: r2).length := triple_length htu
            have hdrop3 : ((d :: r2) ++ sfx).drop 3 = (d :: r2).drop 3 ++ sfx :=
              List.drop_append_of_le_length h3
            have hlen : ((d :: r2).drop 3).length ≤ n := by
              have l1 : (d :: r2).length ≤ (c :: rest).length := by
                rw [← hdr]
                exact (List.dropWhile_sublist (l := c :: rest) (p := isJsWs)).length_le
              simp [List.length_drop] at l1 ⊢
              omega
            have hfa3 : fenceAt (c :: (rest ++ sfx)) = false := by
              rw [← List.cons_append]
              exact hfa2
            have hta3 : tripleAt ((c :: (rest ++ sfx)).dropWhile isJsWs) = true := by
              rw [← List.cons_append]
              exact hta
            have hstepL : scan ((c :: rest) ++ sfx) =
                scan (((c :: (rest ++ sfx)).dropWhile isJsWs).drop 3) := by
              rw [List.cons_append]
              exact scan_cons_triple hfa3 hta3
            have h4 : (c :: (rest ++ sfx)).dropWhile isJsWs = (d :: r2) ++ sfx := by
              rw [← List.cons_append]
              exact h1
            have htu2 : tripleAt ((c :: rest).dropWhile isJsWs) = true := by
              rw [hdr]
              exact htu
            have hstepR : scan (c :: rest) = scan (((c :: rest).dropWhile isJsWs).drop 3) :=
              scan_cons_triple hfu htu2
            rw [hstepL, h4, hdrop3, ih _ hlen, hstepR, hdr]
        · have hta2 : tripleAt (((c :: rest) ++ sfx).dropWhile isJsWs) = false :=
            bool_eq_false hta
          have htu : tripleAt ((c :: rest).dropWhile isJsWs) = false := by
            cases hdu : (c :: rest).dropWhile isJsWs with
            | nil => decide
            | cons d r2 =>
              cases htr : tripleAt (d :: r2) with
              | false => rfl
              | true =>
                exfalso
                have h1 : ((c :: rest) ++ sfx).dropWhile isJsWs = (d :: r2) ++ sfx := by
                  rw [dropWhile_append_of_ne_nil (by rw [hdu]; exact List.cons_ne_nil d r2), hdu]
                rw [h1, tripleAt_append_sfx, htr] at hta2
                exact absurd hta2 (by decide)
          have hfa3 : fenceAt (c :: (rest ++ sfx)) = false := by
            rw [← List.cons_append]
            exact hfa2
          have hta3 : tripleAt ((c :: (rest ++ sfx)).dropWhile isJsWs) = false := by
            rw [← List.cons_append]
            exact hta2
          have hstepL : scan ((c :: rest) ++ sfx) = c :: scan (rest ++ sfx) := by
            rw [List.cons_append]
            exact scan_cons_emit hfa3 hta3
          have hstepR : scan (c :: rest) = c :: scan rest := scan_cons_emit hfu htu
          rw [hstepL, ih rest hrest, hstepR]
          by_cases hc : isJsWs c = true
          · have hrestne : rest.dropWhile isJsWs ≠ [] := by
              intro hnil
              have hallc : ∀ x ∈ c :: rest, isJsWs x = true := by
                intro x hx
                rcases List.mem_cons.mp hx with h | h
                · rw [h]
                  exact hc
                · exact (List.dropWhile_eq_nil_iff.mp hnil) x h
              have h1 : ((c :: rest) ++ sfx).dropWhile isJsWs = sfx.dropWhile isJsWs :=
                List.dropWhile_append_of_pos hallc
              rw [h1] at hta2
              exact absurd hta2 (by decide)
            obtain ⟨d, r2, hdr⟩ : ∃ d r2, rest.dropWhile isJsWs = d :: r2 := by
              cases h : rest.dropWhile isJsWs with
              | nil => exact absurd h hrestne
              | cons d r2 => exact ⟨d, r2, rfl⟩
            have htr2 : tripleAt (d :: r2) = false := by
              have h1 : ((c :: rest) ++ sfx).dropWhile isJsWs = (d :: r2) ++ sfx := by
                rw [List.cons_append, List.dropWhile_cons_of_pos hc,
                  dropWhile_append_of_ne_nil (by rw [hdr]; exact List.cons_ne_nil d r2), hdr]
              rw [h1, tripleAt_append_sfx] at hta2
              exact hta2
            exact (trimR_cons_of_exists (scan_contains_nonws hdr htr2)).symm
          · exact (trimR_cons_of_not_ws (bool_eq_false hc)).symm

lemma scan_append_sfx (u : List Char) : scan (u ++ sfx) = trimR (scan u) :=
  scan_append_sfx_aux u.length u le_rfl


lemma string_data_append (a b : String) : (a ++ b).data = a.data ++ b.data := rfl

/-- Claim C9: the fence stripping of the response parser is a round-trip
identity on JSON document texts: for every text whose first
non-whitespace character is not a backtick - true of every JSON document,
which begins with one of the characters brace, bracket, quote, minus,
digit, t, f or n after optional whitespace - cleanJson applied to the text
wrapped in json code-fence markers equals cleanJson of the unfenced
text. -/
theorem clean_json_fence_roundtrip (t : String)
    (h : (t.data.dropWhile isJsWs).head? ≠ some btick) :
    cleanJson (fenceWrap t) = cleanJson t := by
  have hdata : (fenceWrap t).data =
      btick :: btick :: btick :: 'j' :: 's' :: 'o' :: 'n' :: '\n' :: (t.data ++ sfx) := by
    show (("```json\n" ++ t) ++ "\n```").data = _
    rw [string_data_append, string_data_append]
    have h8 : "```json\n".data =
        [btick, btick, btick, 'j', 's', 'o', 'n', '\n'] := by decide
    rw [h8]
    simp [sfx]
  have hfence : fenceAt
      (btick :: btick :: btick :: 'j' :: 's' :: 'o' :: 'n' :: '\n' :: (t.data ++ sfx)) = true := by
    rw [fenceAt_eq_true_iff]
    rfl
  have hscan1 : scan ((fenceWrap t).data) = scan ((t.data ++ sfx).dropWhile isJsWs) := by
    rw [hdata, scan_cons_fence hfence]
    have hdrop7 : (btick :: btick :: btick :: 'j' :: 's' :: 'o' :: 'n' :: '\n' ::
        (t.data ++ sfx)).drop 7 = '\n' :: (t.data ++ sfx) := rfl
    rw [hdrop7, List.dropWhile_cons_of_pos (by decide)]
  by_cases hdu : t.data.dropWhile isJsWs = []
  · have hall : ∀ x ∈ t.data, isJsWs x = true := List.dropWhile_eq_nil_iff.mp hdu
    have h1 : (t.data ++ sfx).dropWhile isJsWs = sfx.dropWhile isJsWs :=
      List.dropWhile_append_of_pos hall
    have h2 : scan (sfx.dropWhile isJsWs) = [] := by decide
    unfold cleanJson
    rw [hscan1, h1, h2, scan_allWs hall]
    have h3 : trimBoth t.data = [] := by
      unfold trimBoth
      rw [show trimL t.data = [] from List.dropWhile_eq_nil_iff.mpr hall]
      rfl
    rw [h3]
    rfl
  · obtain ⟨d, r, hdr⟩ : ∃ d r, t.data.dropWhile isJsWs = d :: r := by
      cases hh : t.data.dropWhile isJsWs with
      | nil => exact absurd hh hdu
      | cons d r => exact ⟨d, r, rfl⟩
    have hd : isJsWs d = false := dropWhile_head_not hdr
    have hdb : d ≠ btick := by
      intro he
      refine h ?_
      rw [hdr, he]
      rfl
    have htm : tripleAt (d :: r) = false := by
      cases htr : tripleAt (d :: r) with
      | false => rfl
      | true => exact absurd (triple_head htr) hdb
    have h1 : (t.data ++ sfx).dropWhile isJsWs = (d :: r) ++ sfx := by
      rw [dropWhile_append_of_ne_nil hdu, hdr]
    have hscan2 : scan ((fenceWrap t).data) = trimR (scan (d :: r)) := by
      rw [hscan1, h1, scan_append_sfx]
    have hsplit : t.data.takeWhile isJsWs ++ (d :: r) = t.data := by
      rw [← hdr]
      exact List.takeWhile_append_dropWhile isJsWs t.data
    have hw : ∀ c2 ∈ t.data.takeWhile isJsWs, isJsWs c2 = true :=
      fun c2 hc2 => List.mem_takeWhile_imp hc2
    have hscanT : scan t.data = t.data.takeWhile isJsWs ++ scan (d :: r) := by
      conv_lhs => rw [← hsplit]
      refine scan_ws_append hw ?_ htm
      intro d2 r2 hh
      obtain ⟨ha, hb⟩ := List.cons.inj hh
      rw [← ha]
      exact hd
    unfold cleanJson
    rw [hscan2, hscanT, trimBoth_trimR]
    have h5 : trimBoth (t.data.takeWhile isJsWs ++ scan (d :: r)) =
        trimBoth (scan (d :: r)) := by
      unfold trimBoth
      rw [trimL_ws_append hw]
    rw [h5]

theorem clean_json_fence_roundtrip_witness :
    cleanJson (fenceWrap "\x7b\"questions\":[\x7b\"title\":\"T\"\x7d]\x7d") =
      cleanJson "\x7b\"questions\":[\x7b\"title\":\"T\"\x7d]\x7d" :=
  clean_json_fence_roundtrip _ (by decide)

end DSPad
